import Mathlib

/-!
# Verification of the sayless Identifier Confirmation & Multi-Provider Dispatch Engine

Shallow embedding of the conversational tool functions of the repository:

* `src/sayless/src/agent.ts` (the realtime-agent variant, namespace `Agent`),
* `src/langchain/js_server/src/tools.ts` (the langchain variant, namespace `Tools`),
* `src/unnamed/part_000` (an older realtime variant; it differs from agent.ts
  only in endpoints and prompt text, its dispatch logic matches agent.ts).

Every operation is embedded as a pure function from its arguments plus an
explicit provider-outcome environment to a pair
`(List ExtCall) × Except String String`:

* the first component is the ordered trace of external calls the operation
  issues (name resolution, HTTP provider calls, Circle SDK calls);
* the second component is `Except.ok s` when the operation returns the display
  string `s` to the conversational layer, and `Except.error e` when a raw
  exception with message `e` escapes the operation.

The external `viem/ens` `normalize` function is a third-party dependency
(treated by the spec as part of the black-box naming scheme); it is modelled
from the spec, section 4.2: it lower-cases the name and fails when the name is
malformed for the naming scheme (a character outside the allowed set, or an
empty dot-separated label).  The JSON payloads returned by providers are
modelled by the strings they are serialized to in the display output.
-/

namespace Sayless

/-! ## String helpers (models of the JavaScript string operations used) -/

/-- Model of JavaScript `s.startsWith(p)`. -/
def strStartsWith (s p : String) : Bool := p.data.isPrefixOf s.data

/-- Model of JavaScript `s.endsWith(t)`. -/
def strEndsWith (s t : String) : Bool := t.data.isSuffixOf s.data

/-- ASCII lower-casing, character by character (the lower-casing step of the
modelled `viem/ens` normalization). -/
def asciiLower (s : String) : String := ⟨s.data.map Char.toLower⟩

/-- Characters the modelled naming scheme accepts after lower-casing:
lower-case ASCII letters, digits, hyphen, underscore, and the label
separator dot. -/
def ensAllowedChar (c : Char) : Bool :=
  (97 ≤ c.toNat && c.toNat ≤ 122) || (48 ≤ c.toNat && c.toNat ≤ 57) ||
    c = '-' || c = '_' || c = '.'

/-- Split a character list at every dot, keeping empty labels. -/
def splitDot : List Char → List (List Char)
  | [] => [[]]
  | c :: cs =>
    let rest := splitDot cs
    if c = '.' then [] :: rest
    else
      match rest with
      | [] => [[c]]
      | l :: ls => (c :: l) :: ls

/-- Modelled from the spec: the external name-normalization capability
(`normalize` from `viem/ens`, a third-party dependency not part of this
repository).  Per spec section 4.2 it lower-cases the name and must fail,
before any network call, when the string is illegal for the naming scheme;
failure is modelled as `Except.error` carrying the thrown message. -/
def viemNormalize (s : String) : Except String String :=
  let t := asciiLower s
  if t.data.all ensAllowedChar then
    if (splitDot t.data).any (fun l => l.isEmpty) then
      .error "Invalid ENS name: empty label"
    else
      .ok t
  else
    .error "Invalid ENS name: disallowed character"

/-- The normalization expression shared by `confirmEnsName`, `getWalletBalance`
and `getTransactionHistory` in both source files:
`normalize(name.endsWith('.eth') ? name : name + '.eth')`. -/
def ensCanonical (name : String) : Except String String :=
  viemNormalize (if strEndsWith name ".eth" then name else name ++ ".eth")

/-- Model of JavaScript `v || d` for an optional number `v`
(`undefined` and `0` are falsy, every other integer is truthy). -/
def jsOrDefault (v : Option Int) (d : Int) : Int :=
  match v with
  | none => d
  | some x => if x = 0 then d else x

/-- Model of JavaScript `v || d` for an optional string `v`
(`undefined` and the empty string are falsy). -/
def jsOrStr (v : Option String) (d : String) : String :=
  match v with
  | none => d
  | some s => if s = "" then d else s

/-- Model of JavaScript `s.split('').join(', ')` from `spellEnsName`. -/
def spelledOut (s : String) : String :=
  String.intercalate ", " (s.data.map Char.toString)

/-! ## Chain Registry -/

/-- The `CHAIN_IDS` object literal (identical in agent.ts, tools.ts and
part_000), modelled as a lookup function: `none` models an absent key. -/
def CHAIN_IDS (c : String) : Option String :=
  if c = "ethereum" then some "1"
  else if c = "base" then some "8453"
  else if c = "polygon" then some "137"
  else if c = "arbitrum" then some "42161"
  else if c = "optimism" then some "10"
  else if c = "avalanche" then some "43114"
  else none

/-- `CHAIN_IDS[chain]` as used inside the execute bodies: a JavaScript member
access on a missing key yields `undefined`, which stringifies to
`"undefined"` when interpolated into a URL. -/
def chainIdOf (c : String) : String := (CHAIN_IDS c).getD "undefined"

/-- Model of the schema-validation failure produced when a tool is invoked
with a chain outside the `z.enum(Object.keys(CHAIN_IDS))` enumeration: the
runtime rejects the invocation before the execute body runs. -/
def chainEnumError (c : String) : String :=
  "Invalid enum value for chain: " ++ c

/-! ## External calls and provider outcomes -/

/-- One external call issued by an operation, with its structured arguments.
`ens` is the `publicClient.getEnsAddress` lookup; `balanceApi`, `historyApi`,
`tokenSearchApi` and `spotPriceApi` are the authenticated 1inch HTTPS calls
(`auth` is the Authorization header value); `circleCreate` is the Circle SDK
`createWallets` call; `faucetApi` is the Circle faucet POST. -/
inductive ExtCall where
  | ens (name : String)
  | balanceApi (auth chainId address : String)
  | historyApi (auth address chainId : String) (limit : Int)
  | tokenSearchApi (auth chainId query : String)
  | spotPriceApi (auth chainId tokenAddress : String)
  | circleCreate (apiKey entitySecret accountType blockchain walletSetId : String)
      (count : Nat)
  | faucetApi (auth address blockchain : String)
  deriving DecidableEq

/-- Outcome of the external ENS resolution call. -/
inductive EnsOutcome where
  | thrown (msg : String)
  | notFound
  | found (addr : String)
  deriving DecidableEq

/-- Outcome of one HTTPS fetch: a rejection with an error message, or a
response with its `ok` flag, status code, and payload (modelled by its
display serialization). -/
inductive FetchOutcome where
  | thrown (msg : String)
  | resp (ok : Bool) (status : Nat) (body : String)
  deriving DecidableEq

/-- One entry of the token-search response. -/
structure TokenInfo where
  symbol : String
  name : String
  address : String
  deriving DecidableEq

/-- Outcome of the token-search fetch; a non-array response body is modelled
as the empty token list (the code treats both identically). -/
inductive SearchOutcome where
  | thrown (msg : String)
  | resp (ok : Bool) (status : Nat) (tokens : List TokenInfo)
  deriving DecidableEq

/-- One wallet of the Circle `createWallets` response. -/
structure Wallet where
  address : String
  blockchain : String
  deriving DecidableEq

/-- Outcome of the Circle `createWallets` SDK call: a rejection, a response
with `data` missing (`noData`), or a response carrying a wallet list. -/
inductive CircleOutcome where
  | thrown (msg : String)
  | noData
  | created (wallets : List Wallet)
  deriving DecidableEq

/-- Outcome of the faucet POST: a rejection, or a response with its `ok`
flag and the parsed body fields `status` and `message` (absent fields are
`none`). -/
inductive FundOutcome where
  | thrown (msg : String)
  | resp (ok : Bool) (status : String) (message : Option String)
  deriving DecidableEq

/-- Provider outcomes consumed by a balance query. -/
structure BalanceEnv where
  ens : EnsOutcome
  fetch : FetchOutcome
  deriving DecidableEq

/-- Provider outcomes consumed by a history query. -/
structure HistoryEnv where
  ens : EnsOutcome
  fetch : FetchOutcome
  deriving DecidableEq

/-- Provider outcomes consumed by a price query; `price` models the spot-price
fetch, its body field modelling the serialized price entry
`priceData[token.address]` of the selected token. -/
structure PriceEnv where
  search : SearchOutcome
  price : FetchOutcome
  deriving DecidableEq

/-! ## Confirmation Protocol prompts -/

/-- The confirmation prompt text for a normalized name. -/
def confirmPrompt (ensName : String) : String :=
  "I want to look up the balance for \"" ++ ensName ++
    "\". Is this spelling correct? Please respond with \"yes\" to proceed or \"no\" to spell it letter by letter."

/-- The spelling prompt text for an attempt. -/
def spellPrompt (currentAttempt : String) : String :=
  "Let me spell that out for you: " ++ spelledOut currentAttempt ++
    ". Is this correct? Please respond with \"yes\" or \"no\"."

/-- `confirmEnsName` (identical in agent.ts, tools.ts and part_000): normalize
with suffix appending, then emit the confirmation prompt.  The body has no
try/catch, so a normalization failure escapes as an exception. -/
def confirmEnsName (name : String) : List ExtCall × Except String String :=
  ([], match ensCanonical name with
       | .error e => .error e
       | .ok ensName => .ok (confirmPrompt ensName))

/-- `spellEnsName` (identical in agent.ts, tools.ts and part_000): split the
attempt into characters joined by a comma delimiter and emit the prompt. -/
def spellEnsName (currentAttempt : String) : List ExtCall × Except String String :=
  ([], .ok (spellPrompt currentAttempt))

/-! ## Provider Dispatch Layer -/

/-- The balance fetch and formatting step of `getWalletBalance`, after the
identifier has been resolved (agent.ts lines 159-181, tools.ts lines
199-221): one authenticated GET, then either the success sentence or the
caught-error sentence. -/
def balanceFetchStep (apiKey chainId displayName addr : String)
    (f : FetchOutcome) : List ExtCall × Except String String :=
  let call := ExtCall.balanceApi ("Bearer " ++ apiKey) chainId addr
  match f with
  | .thrown m =>
    ([call], .ok ("Sorry, I couldn\x27t fetch the balance. Error: " ++ m))
  | .resp ok status body =>
    if ok then
      ([call], .ok ("The wallet " ++ displayName ++ " (" ++ addr ++
        ") has the following balances: " ++ body))
    else
      ([call], .ok ("Sorry, I couldn\x27t fetch the balance. Error: 1inch API returned status: "
        ++ toString status))

/-- `getWalletBalance` (agent.ts lines 131-183; the tools.ts body, lines
177-231, is identical): resolve the identifier unless it already starts with
"0x", then fetch the balance; every failure inside the try block is caught
and turned into a display string. -/
def getWalletBalance (apiKey addressOrName chain : String) (env : BalanceEnv) :
    List ExtCall × Except String String :=
  let chainId := chainIdOf chain
  if strStartsWith addressOrName "0x" then
    balanceFetchStep apiKey chainId addressOrName addressOrName env.fetch
  else
    match ensCanonical addressOrName with
    | .error e =>
      ([], .ok ("Sorry, I couldn\x27t fetch the balance. Error: " ++ e))
    | .ok ensName =>
      match env.ens with
      | .thrown m =>
        ([.ens ensName], .ok ("Sorry, I couldn\x27t fetch the balance. Error: " ++ m))
      | .notFound =>
        ([.ens ensName], .ok ("Could not resolve ENS name " ++ ensName ++ " to an address"))
      | .found addr =>
        let r := balanceFetchStep apiKey chainId addressOrName addr env.fetch
        (.ens ensName :: r.1, r.2)

/-- The corrective message returned for an over-limit history request. -/
def limitMsg : String :=
  "Sorry, the maximum limit for transactions is 100. Please specify a lower number."

/-- The limit check, history fetch and formatting step of
`getTransactionHistory`, after the identifier has been resolved (agent.ts
lines 208-254, tools.ts lines 250-296): compute `limit || 10`, reject values
above 100 locally, otherwise one authenticated GET carrying the limit. -/
def historyFetchStep (apiKey chainId displayName addr : String)
    (limit : Option Int) (f : FetchOutcome) : List ExtCall × Except String String :=
  let queryLimit := jsOrDefault limit 10
  if queryLimit > 100 then
    ([], .ok limitMsg)
  else
    let call := ExtCall.historyApi ("Bearer " ++ apiKey) addr chainId queryLimit
    match f with
    | .thrown m =>
      ([call], .ok ("Sorry, I couldn\x27t fetch the transaction history. Error: " ++ m))
    | .resp ok status body =>
      if ok then
        ([call], .ok ("Here are the last " ++ toString queryLimit ++
          " transactions for " ++ displayName ++ " (" ++ addr ++ "): " ++ body))
      else
        ([call],
          .ok ("Sorry, I couldn\x27t fetch the transaction history. Error: Transaction history API returned status: "
            ++ toString status))

/-- `getTransactionHistory` (agent.ts lines 185-256; the tools.ts body, lines
233-307, is identical): resolve the identifier unless it starts with "0x",
then apply the limit check and fetch; every failure inside the try block is
caught and turned into a display string.  Note that resolution runs before
the limit check. -/
def getTransactionHistory (apiKey addressOrName chain : String)
    (limit : Option Int) (env : HistoryEnv) : List ExtCall × Except String String :=
  let chainId := chainIdOf chain
  if strStartsWith addressOrName "0x" then
    historyFetchStep apiKey chainId addressOrName addressOrName limit env.fetch
  else
    match ensCanonical addressOrName with
    | .error e =>
      ([], .ok ("Sorry, I couldn\x27t fetch the transaction history. Error: " ++ e))
    | .ok ensName =>
      match env.ens with
      | .thrown m =>
        ([.ens ensName],
          .ok ("Sorry, I couldn\x27t fetch the transaction history. Error: " ++ m))
      | .notFound =>
        ([.ens ensName], .ok ("Could not resolve ENS name " ++ ensName ++ " to an address"))
      | .found addr =>
        let r := historyFetchStep apiKey chainId addressOrName addr limit env.fetch
        (.ens ensName :: r.1, r.2)

/-- The caught-error sentence of `getTokenPrice`. -/
def priceErrMsg (m : String) : String :=
  "Sorry, I couldn\x27t fetch the token price. Error: " ++ m

/-- `getTokenPrice` (agent.ts lines 269-388; part_000 has the same chained
search-then-price structure): search the token by free text, short-circuit
with a not-found message when the result list is empty, otherwise fetch the
spot price of the first match; every failure inside the try block is caught
and turned into a display string. -/
def getTokenPrice (apiKey tokenName chain : String) (env : PriceEnv) :
    List ExtCall × Except String String :=
  let chainId := chainIdOf chain
  let searchCall := ExtCall.tokenSearchApi ("Bearer " ++ apiKey) chainId tokenName
  match env.search with
  | .thrown m => ([searchCall], .ok (priceErrMsg m))
  | .resp ok status tokens =>
    if ok then
      match tokens with
      | [] =>
        ([searchCall], .ok ("Sorry, I couldn\x27t find a token matching \"" ++
          tokenName ++ "\" on " ++ chain))
      | token :: _ =>
        let priceCall := ExtCall.spotPriceApi ("Bearer " ++ apiKey) chainId token.address
        match env.price with
        | .thrown m => ([searchCall, priceCall], .ok (priceErrMsg m))
        | .resp pok pstatus pbody =>
          if pok then
            ([searchCall, priceCall], .ok (token.name ++ " (" ++ token.symbol ++
              ") on " ++ chain ++ " is currently worth $" ++ pbody ++ " USD"))
          else
            ([searchCall, priceCall],
              .ok (priceErrMsg ("Spot price API returned status: " ++ toString pstatus)))
    else
      ([searchCall], .ok (priceErrMsg ("Token search API returned status: " ++ toString status)))

/-! ## Wallet creation and funding (the two variants differ here) -/

/-- The Circle API key literal inlined in agent.ts line 399 and tools.ts
line 83. -/
def circleApiKeyLit : String :=
  "TEST_API_KEY:93dd4d5865d2c49be6acef5259c1866e:82972958035a307d9b42906e763e331a"

/-- The Circle entity-secret literal inlined in agent.ts line 400 and
tools.ts line 84. -/
def circleEntitySecretLit : String :=
  "9be810e30c3e952193e924f6b1888b9123b49dfccc328df5d66d844c7cb0e64d"

/-- The wallet-set id literal inlined in agent.ts line 423 and tools.ts
line 90. -/
def walletSetIdLit : String := "f379a57e-6ebe-5945-a5f0-0633133fea8d"

/-- `createCircleWallet` of agent.ts (lines 390-439), with the inlined
credentials abstracted as parameters: the SDK call hard-codes account type
`"EOA"` and blockchain `"ETH-SEPOLIA"` regardless of the caller's arguments,
while the display text echoes the caller's arguments.  An empty wallet list
makes the member access `wallets[0].address` throw a TypeError, which the
catch turns into a display string; a missing `data` short-circuits the
optional chaining to `undefined`. -/
def Agent.createCircleWalletWith (apiKey entitySecret blockchain accountType : String)
    (outcome : CircleOutcome) : List ExtCall × Except String String :=
  let call := ExtCall.circleCreate apiKey entitySecret "EOA" "ETH-SEPOLIA" walletSetIdLit 1
  match outcome with
  | .thrown m => ([call], .ok ("Failed to create wallet: " ++ m))
  | .noData =>
    ([call], .ok ("Successfully created a new " ++ accountType ++ " wallet on " ++
      blockchain ++ ":\n              Address: undefined\n              Blockchain: undefined"))
  | .created [] =>
    ([call],
      .ok "Failed to create wallet: Cannot read properties of undefined (reading \x27address\x27)")
  | .created (w :: _) =>
    ([call], .ok ("Successfully created a new " ++ accountType ++ " wallet on " ++
      blockchain ++ ":\n              Address: " ++ w.address ++
      "\n              Blockchain: " ++ w.blockchain))

/-- `createCircleWallet` of agent.ts applied to its inlined credentials. -/
def Agent.createCircleWallet (blockchain accountType : String) (outcome : CircleOutcome) :
    List ExtCall × Except String String :=
  Agent.createCircleWalletWith circleApiKeyLit circleEntitySecretLit
    blockchain accountType outcome

/-- `createCircleWallet` of tools.ts (lines 79-117), with the inlined
credentials abstracted as parameters: the SDK call passes the caller's
account type and blockchain through, a missing or empty wallet list raises
`No wallet data returned`, and the catch block re-throws a wrapped error
instead of returning a string. -/
def Tools.createCircleWalletWith (apiKey entitySecret blockchain accountType : String)
    (outcome : CircleOutcome) : List ExtCall × Except String String :=
  let call := ExtCall.circleCreate apiKey entitySecret accountType blockchain walletSetIdLit 1
  match outcome with
  | .thrown m => ([call], .error ("Failed to create wallet: " ++ m))
  | .noData =>
    ([call], .error "Failed to create wallet: Failed to create wallet: No wallet data returned")
  | .created [] =>
    ([call], .error "Failed to create wallet: Failed to create wallet: No wallet data returned")
  | .created (w :: _) =>
    ([call], .ok ("Successfully created a new " ++ accountType ++ " wallet on " ++
      blockchain ++ ":\n        Address: " ++ w.address ++
      "\n        Blockchain: " ++ w.blockchain))

/-- `createCircleWallet` of tools.ts applied to its inlined credentials. -/
def Tools.createCircleWallet (blockchain accountType : String) (outcome : CircleOutcome) :
    List ExtCall × Except String String :=
  Tools.createCircleWalletWith circleApiKeyLit circleEntitySecretLit
    blockchain accountType outcome

/-- `fundWallet` of agent.ts (lines 441-479): one authenticated faucet POST;
a non-ok response throws `API request failed` with the body message
defaulted through `||`, and the catch returns the failure as a display
string. -/
def Agent.fundWalletWith (apiKey address blockchain : String) (outcome : FundOutcome) :
    List ExtCall × Except String String :=
  let call := ExtCall.faucetApi ("Bearer " ++ apiKey) address blockchain
  match outcome with
  | .thrown m => ([call], .ok ("Failed to fund wallet: " ++ m))
  | .resp ok status message =>
    if ok then
      ([call], .ok ("Successfully requested test tokens for your wallet:\n                Status: "
        ++ status ++ "\n                Destination Address: " ++ address ++
        "\n                Blockchain: " ++ blockchain))
    else
      ([call], .ok ("Failed to fund wallet: API request failed: " ++
        jsOrStr message "Unknown error"))

/-- `fundWallet` of tools.ts (lines 119-161): same faucet POST, but the catch
block re-throws a wrapped error instead of returning a string. -/
def Tools.fundWalletWith (apiKey address blockchain : String) (outcome : FundOutcome) :
    List ExtCall × Except String String :=
  let call := ExtCall.faucetApi ("Bearer " ++ apiKey) address blockchain
  match outcome with
  | .thrown m => ([call], .error ("Failed to fund wallet: " ++ m))
  | .resp ok status message =>
    if ok then
      ([call], .ok ("Successfully requested test tokens for your wallet:\n          Status: "
        ++ status ++ "\n          Destination Address: " ++ address ++
        "\n          Blockchain: " ++ blockchain))
    else
      ([call], .error ("Failed to fund wallet: API request failed: " ++
        jsOrStr message "Unknown error"))

/-! ## Tool invocation wrappers (schema validation of the chain argument)

The conversational runtime validates every tool call against its zod schema
before the execute body runs; the chain argument is declared as
`z.enum(Object.keys(CHAIN_IDS))`, so a chain outside the enumerated set is
rejected locally with a validation error and the execute body (and hence any
external call) is never reached. -/

/-- Invocation of `getWalletBalance` through its schema. -/
def getWalletBalanceInvoke (apiKey addressOrName chain : String) (env : BalanceEnv) :
    List ExtCall × Except String String :=
  match CHAIN_IDS chain with
  | none => ([], .error (chainEnumError chain))
  | some _ => getWalletBalance apiKey addressOrName chain env

/-- Invocation of `getTransactionHistory` through its schema. -/
def getTransactionHistoryInvoke (apiKey addressOrName chain : String)
    (limit : Option Int) (env : HistoryEnv) : List ExtCall × Except String String :=
  match CHAIN_IDS chain with
  | none => ([], .error (chainEnumError chain))
  | some _ => getTransactionHistory apiKey addressOrName chain limit env

/-- Invocation of `getTokenPrice` through its schema. -/
def getTokenPriceInvoke (apiKey tokenName chain : String) (env : PriceEnv) :
    List ExtCall × Except String String :=
  match CHAIN_IDS chain with
  | none => ([], .error (chainEnumError chain))
  | some _ => getTokenPrice apiKey tokenName chain env

/-! ## Helper lemmas on the modelled string operations -/

theorem toNat_ofNat_valid (n : Nat) (h : n.isValidChar) : (Char.ofNat n).toNat = n := by
  simp [Char.ofNat, h, Char.ofNatAux, Char.toNat, UInt32.toNat, BitVec.toNat_ofNatLt]

theorem toLower_idem (c : Char) : c.toLower.toLower = c.toLower := by
  show Char.toLower c.toLower = c.toLower
  by_cases h : c.toNat ≥ 65 ∧ c.toNat ≤ 90
  · have hv : (c.toNat + 32).isValidChar := by
      left
      have : c.toNat ≤ 90 := h.2
      omega
    have h1 : c.toLower = Char.ofNat (c.toNat + 32) := by
      unfold Char.toLower
      rw [if_pos h]
    rw [h1]
    unfold Char.toLower
    rw [toNat_ofNat_valid _ hv, if_neg (by omega), ← h1]
  · have h1 : c.toLower = c := by
      unfold Char.toLower
      rw [if_neg h]
    rw [h1, h1]

theorem asciiLower_idem (s : String) : asciiLower (asciiLower s) = asciiLower s := by
  unfold asciiLower
  simp only [List.map_map]
  congr 1
  apply List.map_congr_left
  intro c _
  exact toLower_idem c

theorem asciiLower_append (a b : String) :
    asciiLower (a ++ b) = asciiLower a ++ asciiLower b := by
  apply String.ext
  simp [asciiLower]

theorem strEndsWith_iff (s t : String) : strEndsWith s t = true ↔ t.data <:+ s.data := by
  simp [strEndsWith, List.isSuffixOf_iff_suffix]

theorem strEndsWith_append_eth (x : String) : strEndsWith (x ++ ".eth") ".eth" = true := by
  simp [strEndsWith_iff]

theorem asciiLower_eth : asciiLower ".eth" = ".eth" := rfl

theorem asciiLower_endsWith_eth (s : String) (h : strEndsWith s ".eth" = true) :
    strEndsWith (asciiLower s) ".eth" = true := by
  rw [strEndsWith_iff] at h ⊢
  obtain ⟨p, hp⟩ := h
  refine ⟨p.map Char.toLower, ?_⟩
  have : (asciiLower s).data = s.data.map Char.toLower := rfl
  rw [this, ← hp]
  simp

theorem viemNormalize_ok (s y : String) (h : viemNormalize s = .ok y) :
    y = asciiLower s ∧ viemNormalize y = .ok y := by
  unfold viemNormalize at h
  by_cases hall : (asciiLower s).data.all ensAllowedChar
  · rw [if_pos hall] at h
    by_cases hlab : ((splitDot (asciiLower s).data).any (fun l => l.isEmpty) : Bool)
    · rw [if_pos hlab] at h
      exact absurd h (by simp)
    · rw [if_neg hlab] at h
      have hy : y = asciiLower s := by
        cases h
        rfl
      refine ⟨hy, ?_⟩
      unfold viemNormalize
      have hfix : asciiLower y = y := by
        rw [hy]
        exact asciiLower_idem s
      rw [hy] at hfix ⊢
      rw [hfix, if_pos hall, if_neg hlab]
  · rw [if_neg hall] at h
    exact absurd h (by simp)

theorem ensCanonical_endsWith (x y : String) (h : ensCanonical x = .ok y) :
    strEndsWith y ".eth" = true := by
  unfold ensCanonical at h
  have hy := (viemNormalize_ok _ _ h).1
  by_cases he : strEndsWith x ".eth" = true
  · rw [if_pos he] at hy
    rw [hy]
    exact asciiLower_endsWith_eth x he
  · rw [if_neg he] at hy
    rw [hy]
    exact asciiLower_endsWith_eth _ (strEndsWith_append_eth x)

/-! ## Claim theorems -/

/-- C5: for every name-like input that does not end in the default suffix
".eth", normalization appends the suffix exactly once (the normalized result
is the lower-cased input followed by one copy of ".eth"), and normalization
is idempotent: re-normalizing a successfully normalized name returns it
unchanged. -/
theorem ensCanonical_appendsOnce_and_idem (x y : String) (h : ensCanonical x = .ok y) :
    (strEndsWith x ".eth" = false → y = asciiLower x ++ ".eth") ∧
    ensCanonical y = .ok y := by
  have hy := (viemNormalize_ok _ _ h).1
  have hnorm := (viemNormalize_ok _ _ h).2
  constructor
  · intro hfalse
    unfold ensCanonical at hy
    rw [if_neg (by simp [hfalse])] at hy
    rw [hy, asciiLower_append, asciiLower_eth]
  · have hE := ensCanonical_endsWith x y h
    unfold ensCanonical
    rw [if_pos hE]
    exact hnorm

/-- Witness for C5 at the concrete input "Vitalik": the suffix is appended
exactly once (lower-cased, single ".eth"), and the result re-normalizes to
itself. -/
theorem ensCanonical_appendsOnce_and_idem_witness :
    (strEndsWith "Vitalik" ".eth" = false → "vitalik.eth" = asciiLower "Vitalik" ++ ".eth") ∧
    ensCanonical "vitalik.eth" = .ok "vitalik.eth" :=
  ensCanonical_appendsOnce_and_idem "Vitalik" "vitalik.eth" (by rfl)

/-- C4: for every chain name not in the enumerated set (case-sensitive exact
match, so `CHAIN_IDS` yields `none`), all three chain-parameterized tool
invocations are rejected by schema validation with an unknown-chain error,
issue zero external calls, and never silently default. -/
theorem unknownChain_rejected (apiKey a t c : String) (lim : Option Int)
    (envB : BalanceEnv) (envH : HistoryEnv) (envP : PriceEnv)
    (h : CHAIN_IDS c = none) :
    getWalletBalanceInvoke apiKey a c envB = ([], .error (chainEnumError c)) ∧
    getTransactionHistoryInvoke apiKey a c lim envH = ([], .error (chainEnumError c)) ∧
    getTokenPriceInvoke apiKey t c envP = ([], .error (chainEnumError c)) := by
  refine ⟨?_, ?_, ?_⟩ <;>
    simp [getWalletBalanceInvoke, getTransactionHistoryInvoke, getTokenPriceInvoke, h]

/-- Witness for C4 at the concrete chain "solana" (the end-to-end scenario of
the spec): all three invocations reject it locally with the unknown-chain
error and an empty call trace. -/
theorem unknownChain_rejected_witness :
    getWalletBalanceInvoke "k" "vitalik" "solana" ⟨.notFound, .resp true 200 "B"⟩ =
      ([], .error (chainEnumError "solana")) ∧
    getTransactionHistoryInvoke "k" "vitalik" "solana" none ⟨.notFound, .resp true 200 "B"⟩ =
      ([], .error (chainEnumError "solana")) ∧
    getTokenPriceInvoke "k" "pepe" "solana" ⟨.resp true 200 [], .resp true 200 "1.5"⟩ =
      ([], .error (chainEnumError "solana")) :=
  unknownChain_rejected "k" "vitalik" "pepe" "solana" none _ _ _ (by rfl)

/-- C6: for every input beginning with the address prefix "0x" (whatever its
length or remaining content), the balance operation uses the input unchanged
as the resolved address — on a successful fetch the single external call is
the balance call on the input itself and the display shows the input as both
identifier and resolved address — and, for every provider outcome, no name
resolution call is ever issued. -/
theorem getWalletBalance_addressPassthrough (apiKey a c body : String) (status : Nat)
    (env : BalanceEnv) (h : strStartsWith a "0x" = true)
    (hf : env.fetch = .resp true status body) :
    getWalletBalance apiKey a c env =
      ([ExtCall.balanceApi ("Bearer " ++ apiKey) (chainIdOf c) a],
        .ok ("The wallet " ++ a ++ " (" ++ a ++ ") has the following balances: " ++ body)) ∧
    (∀ env' : BalanceEnv, ∀ n : String,
      ExtCall.ens n ∉ (getWalletBalance apiKey a c env').1) := by
  constructor
  · unfold getWalletBalance
    rw [if_pos h]
    unfold balanceFetchStep
    rw [hf]
    simp
  · intro env' n
    unfold getWalletBalance
    rw [if_pos h]
    unfold balanceFetchStep
    rcases env'.fetch with m | ⟨ok, st, b⟩
    · simp
    · simp only []
      split <;> simp

/-- Witness for C6 at the concrete address-shaped input "0xNotEvenHex!?": the
resolver is bypassed and the input is passed through unchanged. -/
theorem getWalletBalance_addressPassthrough_witness :
    getWalletBalance "k" "0xNotEvenHex!?" "ethereum" ⟨.notFound, .resp true 200 "B"⟩ =
      ([ExtCall.balanceApi ("Bearer " ++ "k") (chainIdOf "ethereum") "0xNotEvenHex!?"],
        .ok ("The wallet " ++ "0xNotEvenHex!?" ++ " (" ++ "0xNotEvenHex!?" ++
          ") has the following balances: " ++ "B")) ∧
    (∀ env' : BalanceEnv, ∀ n : String,
      ExtCall.ens n ∉ (getWalletBalance "k" "0xNotEvenHex!?" "ethereum" env').1) :=
  getWalletBalance_addressPassthrough "k" "0xNotEvenHex!?" "ethereum" "B" 200 _
    (by rfl) (by rfl)

/-- C7: when the token search returns an empty result list, the price query
returns the not-found message naming the searched token and the only external
call in the trace is the search call — the spot-price provider is never
called. -/
theorem getTokenPrice_emptySearch (apiKey t c : String) (status : Nat) (env : PriceEnv)
    (h : env.search = .resp true status []) :
    getTokenPrice apiKey t c env =
      ([ExtCall.tokenSearchApi ("Bearer " ++ apiKey) (chainIdOf c) t],
        .ok ("Sorry, I couldn\x27t find a token matching \"" ++ t ++ "\" on " ++ c)) := by
  unfold getTokenPrice
  rw [h]
  simp

/-- Witness for C7 at the concrete token "pepe" on "base". -/
theorem getTokenPrice_emptySearch_witness :
    getTokenPrice "k" "pepe" "base" ⟨.resp true 200 [], .resp true 200 "1.5"⟩ =
      ([ExtCall.tokenSearchApi ("Bearer " ++ "k") (chainIdOf "base") "pepe"],
        .ok ("Sorry, I couldn\x27t find a token matching \"" ++ "pepe" ++ "\" on " ++ "base")) :=
  getTokenPrice_emptySearch "k" "pepe" "base" 200 _ (by rfl)

/-- C3 counterexample: for `limit = 150` with a name-like identifier, the
history operation returns the corrective message but has already issued one
external call (the ENS resolution), because resolution runs before the limit
check — so "zero external calls of any kind" is false as stated. -/
theorem historyLimit150_resolvesFirst :
    getTransactionHistory "k" "vitalik" "ethereum" (some 150)
        ⟨.found "0xAAA", .resp true 200 "P"⟩ =
      ([ExtCall.ens "vitalik.eth"], .ok limitMsg) := by
  rfl

/-- C3 amended: for `limit = 150` the engine returns the corrective message
and never calls the history provider (for an address-shaped identifier the
call trace is empty, but a name-like identifier still triggers the resolution
call first); for an unspecified limit, exactly one history-provider call is
made, carrying limit 10. -/
theorem historyLimit_amended (apiKey a c : String) (env : HistoryEnv)
    (h : strStartsWith a "0x" = true) :
    getTransactionHistory apiKey a c (some 150) env = ([], .ok limitMsg) ∧
    (getTransactionHistory apiKey a c none env).1 =
      [ExtCall.historyApi ("Bearer " ++ apiKey) a (chainIdOf c) 10] ∧
    (∀ a' : String, ∀ env' : HistoryEnv, ∀ auth r cid : String, ∀ l : Int,
      ExtCall.historyApi auth r cid l ∉
        (getTransactionHistory apiKey a' c (some 150) env').1) := by
  refine ⟨?_, ?_, ?_⟩
  · unfold getTransactionHistory
    rw [if_pos h]
    rfl
  · unfold getTransactionHistory
    rw [if_pos h]
    unfold historyFetchStep
    simp only [jsOrDefault]
    norm_num
    rcases env.fetch with m | ⟨ok, st, b⟩
    · simp
    · simp only []
      split <;> simp
  · intro a' env' auth r cid l
    unfold getTransactionHistory
    split
    · unfold historyFetchStep
      simp [jsOrDefault]
    · rcases hc : ensCanonical a' with e | en <;> simp
      rcases env'.ens with m | _ | addr <;> simp
      unfold historyFetchStep
      simp [jsOrDefault]

/-- Witness for C3 amended at the concrete address-shaped input "0xBBB". -/
theorem historyLimit_amended_witness :
    getTransactionHistory "k" "0xBBB" "ethereum" (some 150) ⟨.notFound, .resp true 200 "P"⟩ =
      ([], .ok limitMsg) ∧
    (getTransactionHistory "k" "0xBBB" "ethereum" none ⟨.notFound, .resp true 200 "P"⟩).1 =
      [ExtCall.historyApi ("Bearer " ++ "k") "0xBBB" (chainIdOf "ethereum") 10] ∧
    (∀ a' : String, ∀ env' : HistoryEnv, ∀ auth r cid : String, ∀ l : Int,
      ExtCall.historyApi auth r cid l ∉
        (getTransactionHistory "k" a' "ethereum" (some 150) env').1) :=
  historyLimit_amended "k" "0xBBB" "ethereum" _ (by rfl)

/-- C10: a caller-supplied limit of 0 is indistinguishable from an omitted
limit — the whole operation (trace and display) is identical in the two
cases — because the default is selected by JavaScript falsiness
(`limit || 10`), which maps both `undefined` and `0` to 10. -/
theorem historyLimitZero_isDefault (apiKey a c : String) (env : HistoryEnv) :
    getTransactionHistory apiKey a c (some 0) env =
      getTransactionHistory apiKey a c none env ∧
    jsOrDefault (some 0) 10 = 10 ∧ jsOrDefault none 10 = 10 :=
  ⟨rfl, rfl, rfl⟩

/-- C1: the agent.ts wallet-creation operation ignores the caller's chain and
account-type selection: invoked with blockchain "MATIC-AMOY" and account type
"SCA", it calls the custody provider with the hard-coded account type "EOA"
and blockchain "ETH-SEPOLIA" (while the tools.ts variant passes the caller's
selection through). -/
theorem agentCreateWallet_ignoresSelection :
    (Agent.createCircleWallet "MATIC-AMOY" "SCA"
        (.created [⟨"0xW1", "ETH-SEPOLIA"⟩])).1 =
      [ExtCall.circleCreate circleApiKeyLit circleEntitySecretLit
        "EOA" "ETH-SEPOLIA" walletSetIdLit 1] ∧
    (Tools.createCircleWallet "MATIC-AMOY" "SCA"
        (.created [⟨"0xW1", "MATIC-AMOY"⟩])).1 =
      [ExtCall.circleCreate circleApiKeyLit circleEntitySecretLit
        "SCA" "MATIC-AMOY" walletSetIdLit 1] :=
  ⟨rfl, rfl⟩

/-- C2 counterexample: in the tools.ts variant, a provider failure during
wallet creation or wallet funding escapes as a raw exception
(`Except.error`), not as a display string. -/
theorem toolsWalletOps_throw :
    (Tools.createCircleWallet "MATIC-AMOY" "SCA" (.thrown "network failure")).2 =
      .error "Failed to create wallet: network failure" ∧
    (Tools.fundWalletWith "k" "0xA" "MATIC-AMOY" (.resp false "" (some "no drips left"))).2 =
      .error "Failed to fund wallet: API request failed: no drips left" :=
  ⟨rfl, rfl⟩

/-- C2 amended: the balance, history and price operations (shared by both
variants) and the agent.ts wallet-creation and funding operations return a
display string for every input and every provider outcome; only the tools.ts
wallet-creation and funding operations re-throw on failure. -/
theorem dispatch_alwaysReturnsText (apiKey a c t addr bc acct : String) (lim : Option Int)
    (envB : BalanceEnv) (envH : HistoryEnv) (envP : PriceEnv)
    (oc : CircleOutcome) (og : FundOutcome) :
    (getWalletBalance apiKey a c envB).2.isOk = true ∧
    (getTransactionHistory apiKey a c lim envH).2.isOk = true ∧
    (getTokenPrice apiKey t c envP).2.isOk = true ∧
    (Agent.createCircleWallet bc acct oc).2.isOk = true ∧
    (Agent.fundWalletWith apiKey addr bc og).2.isOk = true := by
  refine ⟨?_, ?_, ?_, ?_, ?_⟩
  · simp only [getWalletBalance, balanceFetchStep]
    repeat' split
    all_goals rfl
  · simp only [getTransactionHistory, historyFetchStep]
    repeat' split
    all_goals rfl
  · simp only [getTokenPrice]
    repeat' split
    all_goals rfl
  · simp only [Agent.createCircleWallet, Agent.createCircleWalletWith]
    repeat' split
    all_goals rfl
  · simp only [Agent.fundWalletWith]
    repeat' split
    all_goals rfl

/-- C8: the formatted display string of every dispatch operation is
independent of the bearer credential (and hence of the derived Authorization
header value): changing the API key (and entity secret) changes no output
text, for every input and every provider outcome — the credential flows only
into the authenticated calls of the trace, never into the display. -/
theorem display_independentOfCredential (k k2 sec sec2 a c t addr bc acct : String)
    (lim : Option Int) (envB : BalanceEnv) (envH : HistoryEnv) (envP : PriceEnv)
    (oc : CircleOutcome) (og : FundOutcome) :
    (getWalletBalance k a c envB).2 = (getWalletBalance k2 a c envB).2 ∧
    (getTransactionHistory k a c lim envH).2 = (getTransactionHistory k2 a c lim envH).2 ∧
    (getTokenPrice k t c envP).2 = (getTokenPrice k2 t c envP).2 ∧
    (Agent.createCircleWalletWith k sec bc acct oc).2 =
      (Agent.createCircleWalletWith k2 sec2 bc acct oc).2 ∧
    (Tools.createCircleWalletWith k sec bc acct oc).2 =
      (Tools.createCircleWalletWith k2 sec2 bc acct oc).2 ∧
    (Agent.fundWalletWith k addr bc og).2 = (Agent.fundWalletWith k2 addr bc og).2 ∧
    (Tools.fundWalletWith k addr bc og).2 = (Tools.fundWalletWith k2 addr bc og).2 := by
  refine ⟨?_, ?_, ?_, ?_, ?_, ?_, ?_⟩
  · simp only [getWalletBalance, balanceFetchStep]
    repeat' split
    all_goals rfl
  · simp only [getTransactionHistory, historyFetchStep]
    repeat' split
    all_goals rfl
  · simp only [getTokenPrice]
    repeat' split
    all_goals rfl
  · simp only [Agent.createCircleWalletWith]
    repeat' split
    all_goals rfl
  · simp only [Tools.createCircleWalletWith]
    repeat' split
    all_goals rfl
  · simp only [Agent.fundWalletWith]
    repeat' split
    all_goals rfl
  · simp only [Tools.fundWalletWith]
    repeat' split
    all_goals rfl

/-- C9 counterexample: the empty string is not rejected with a request to
repeat — the spelling prompt returns its ordinary yes/no prompt with an empty
spelled-out sequence, and the confirm prompt raises an unhandled
normalization exception; and the confirm prompt can also fail on other
(malformed) inputs, here "ab cd". -/
theorem confirmSpell_emptyString :
    spellEnsName "" =
      ([], .ok "Let me spell that out for you: . Is this correct? Please respond with \"yes\" or \"no\".") ∧
    (confirmEnsName "").2 = .error "Invalid ENS name: empty label" ∧
    (confirmEnsName "ab cd").2 = .error "Invalid ENS name: disallowed character" :=
  ⟨rfl, rfl, rfl⟩

/-- C9 amended: neither prompt calls an external service; the spelling prompt
never fails on any input (including the empty string, which yields the
ordinary prompt rather than a rejection); the confirm prompt returns the
confirmation prompt exactly when normalization of the suffixed name succeeds
and otherwise lets the normalization exception escape — the empty string is
such a failure, not a handled rejection. -/
theorem confirmSpell_behavior (s : String) :
    spellEnsName s = ([], .ok (spellPrompt s)) ∧
    confirmEnsName s = ([], Except.map confirmPrompt (ensCanonical s)) ∧
    (ensCanonical "").isOk = false := by
  refine ⟨rfl, ?_, rfl⟩
  unfold confirmEnsName
  rcases h : ensCanonical s with e | y <;> simp [Except.map]

end Sayless
